import Mathlib

/-!
Verification of the contact address-book library (`src/address_book.py`).

The embedding is shallow: Python classes become Lean structures, methods
become functions.  A mutating method that can raise `ValueError` is modelled
as a function returning the final object state together with an optional
raised error message, mirroring Python exception semantics: the state
returned is exactly the state of the object at the moment the exception
propagates (mutations performed before the raise are kept).
-/

namespace AddressBookSpec

/--
The set of characters matched by the regex class `\d` when Python's `re`
module matches a `str` pattern (the default Unicode mode): all characters of
Unicode general category Nd (decimal digit), given here as the list of
closed codepoint ranges.  ASCII `0`-`9` is only the first range.
-/
def ndRanges : List (Nat × Nat) :=
  [(0x30, 0x39), (0x660, 0x669), (0x6F0, 0x6F9), (0x7C0, 0x7C9),
   (0x966, 0x96F), (0x9E6, 0x9EF), (0xA66, 0xA6F), (0xAE6, 0xAEF),
   (0xB66, 0xB6F), (0xBE6, 0xBEF), (0xC66, 0xC6F), (0xCE6, 0xCEF),
   (0xD66, 0xD6F), (0xDE6, 0xDEF), (0xE50, 0xE59), (0xED0, 0xED9),
   (0xF20, 0xF29), (0x1040, 0x1049), (0x1090, 0x1099), (0x17E0, 0x17E9),
   (0x1810, 0x1819), (0x1946, 0x194F), (0x19D0, 0x19D9), (0x1A80, 0x1A89),
   (0x1A90, 0x1A99), (0x1B50, 0x1B59), (0x1BB0, 0x1BB9), (0x1C40, 0x1C49),
   (0x1C50, 0x1C59), (0xA620, 0xA629), (0xA8D0, 0xA8D9), (0xA900, 0xA909),
   (0xA9D0, 0xA9D9), (0xA9F0, 0xA9F9), (0xAA50, 0xAA59), (0xABF0, 0xABF9),
   (0xFF10, 0xFF19), (0x104A0, 0x104A9), (0x10D30, 0x10D39),
   (0x11066, 0x1106F), (0x110F0, 0x110F9), (0x11136, 0x1113F),
   (0x111D0, 0x111D9), (0x112F0, 0x112F9), (0x11450, 0x11459),
   (0x114D0, 0x114D9), (0x11650, 0x11659), (0x116C0, 0x116C9),
   (0x11730, 0x11739), (0x118E0, 0x118E9), (0x11950, 0x11959),
   (0x11C50, 0x11C59), (0x11D50, 0x11D59), (0x11DA0, 0x11DA9),
   (0x16A60, 0x16A69), (0x16AC0, 0x16AC9), (0x16B50, 0x16B59),
   (0x1D7CE, 0x1D7FF), (0x1E140, 0x1E149), (0x1E2F0, 0x1E2F9),
   (0x1E950, 0x1E959), (0x1FBF0, 0x1FBF9)]

/-- A character matched by Python's `\d` on a `str`: Unicode category Nd. -/
def isPyDigit (c : Char) : Bool :=
  ndRanges.any fun p => decide (p.1 ≤ c.toNat) && decide (c.toNat ≤ p.2)

/--
`matchDigitsN n cs = true` iff the regex `\d{n}` full-matches the character
sequence `cs` — full match being anchored at both ends, as `re.fullmatch`
is.  `re.fullmatch(r'\d{10}', value)` in `Phone.__init__` is
`matchDigitsN 10 value.data`.
-/
def matchDigitsN : Nat → List Char → Bool
  | 0, [] => true
  | 0, _ :: _ => false
  | _ + 1, [] => false
  | n + 1, c :: cs => isPyDigit c && matchDigitsN n cs

/-- `re.fullmatch(r'\d{10}', s)` viewed as a Boolean test. -/
def phoneFullmatch (s : String) : Bool :=
  matchDigitsN 10 s.data

/--
The SPEC's reading of the phone rule (for comparison with the code):
exactly 10 characters, each an ASCII digit `0`-`9`.
-/
def specAsciiDigit (c : Char) : Bool :=
  decide ('0' ≤ c) && decide (c ≤ '9')

/-- The spec's phone-acceptance predicate: 10 ASCII digits, anchored. -/
def specPhoneOk (s : String) : Bool :=
  s.data.length == 10 && s.data.all specAsciiDigit

/-- `Name`: a contact name; the stored `value` string. -/
structure Name where
  value : String
deriving DecidableEq, Repr

/--
`Name.__init__`: raises `ValueError("Name cannot be empty")` when
`not value` (for a string: when it is empty), otherwise stores the value.
-/
def Name.make (value : String) : Except String Name :=
  if value = "" then .error "Name cannot be empty" else .ok ⟨value⟩

/-- `Phone`: a phone number; the stored `value` string. -/
structure Phone where
  value : String
deriving DecidableEq, Repr

/--
`Phone.__init__`: raises `ValueError("Phone number must be 10 digits")`
unless `re.fullmatch(r'\d{10}', value)` matches; otherwise stores the value.
-/
def Phone.make (value : String) : Except String Phone :=
  if phoneFullmatch value then .ok ⟨value⟩
  else .error "Phone number must be 10 digits"

/-- `Record`: one contact, a `Name` plus an ordered list of `Phone`s. -/
structure Record where
  name : Name
  phones : List Phone
deriving DecidableEq, Repr

/-- `Record.__init__`: validates the name, starts with no phones. -/
def Record.make (name : String) : Except String Record :=
  (Name.make name).map fun nm => ⟨nm, []⟩

/--
`Record.add_phone`: constructs `Phone(phone_number)` first (which may
raise), then appends it.  Result: final record state and the raised error,
if any; on a raise the record is unchanged because nothing was appended.
-/
def Record.add_phone (r : Record) (phone_number : String) :
    Record × Option String :=
  match Phone.make phone_number with
  | .ok p => ({ r with phones := r.phones ++ [p] }, none)
  | .error e => (r, some e)

/--
`Record.remove_phone`: rebinds `self.phones` to the list of phones whose
value differs from `phone_number`.  Total; never raises.
-/
def Record.remove_phone (r : Record) (phone_number : String) : Record :=
  { r with phones := r.phones.filter fun p => p.value != phone_number }

/--
`Record.edit_phone`: `remove_phone(old)` then `add_phone(new)`.  If
`add_phone` raises, the removal has already mutated the record; the state
returned alongside the error is the post-removal state.
-/
def Record.edit_phone (r : Record)
    (old_phone_number new_phone_number : String) : Record × Option String :=
  (r.remove_phone old_phone_number).add_phone new_phone_number

/--
`Record.find_phone`: scans `self.phones` in order, returns the first phone
whose value equals `phone_number`, else `None`.  Total; never raises.
-/
def Record.find_phone (r : Record) (phone_number : String) : Option Phone :=
  r.phones.find? fun p => p.value == phone_number

/--
`AddressBook(UserDict)`: its `data` dict, modelled as an insertion-ordered
association list (Python dicts preserve insertion order; assignment to an
existing key keeps its position).
-/
structure AddressBook where
  data : List (String × Record)
deriving DecidableEq, Repr

/-- `self.data.get(name, None)`. -/
def dictGet (d : List (String × Record)) (k : String) : Option Record :=
  (d.find? fun kv => kv.1 == k).map Prod.snd

/-- `self.data[k] = v`: replace in place if the key exists, else append. -/
def dictSet (d : List (String × Record)) (k : String) (v : Record) :
    List (String × Record) :=
  if d.any fun kv => kv.1 == k then
    d.map fun kv => if kv.1 == k then (k, v) else kv
  else d ++ [(k, v)]

/-- `AddressBook.add_record`: `self.data[record.name.value] = record`. -/
def AddressBook.add_record (book : AddressBook) (record : Record) :
    AddressBook :=
  ⟨dictSet book.data record.name.value record⟩

/-- `AddressBook.find`: `self.data.get(name, None)`. -/
def AddressBook.find (book : AddressBook) (name : String) : Option Record :=
  dictGet book.data name

/-- `AddressBook.delete`: `if name in self.data: del self.data[name]`. -/
def AddressBook.delete (book : AddressBook) (name : String) : AddressBook :=
  if book.data.any fun kv => kv.1 == name then
    ⟨book.data.filter fun kv => kv.1 != name⟩
  else book

/-! ## Helper lemmas (shared) -/

/-- `\d{n}` full-matches `cs` iff `cs` has length `n` and every character
is a Python digit. -/
theorem matchDigitsN_iff (n : Nat) (cs : List Char) :
    matchDigitsN n cs = true ↔ cs.length = n ∧ ∀ c ∈ cs, isPyDigit c = true := by
  induction cs generalizing n with
  | nil => cases n <;> simp [matchDigitsN]
  | cons c cs ih =>
    cases n with
    | zero => simp [matchDigitsN]
    | succ n =>
      simp only [matchDigitsN, Bool.and_eq_true, ih, List.length_cons,
        List.mem_cons, Nat.succ.injEq]
      constructor
      · rintro ⟨hc, hlen, hall⟩
        exact ⟨hlen, fun x hx => hx.elim (fun h => h ▸ hc) (hall x)⟩
      · rintro ⟨hlen, hall⟩
        exact ⟨hall c (Or.inl rfl), hlen, fun x hx => hall x (Or.inr hx)⟩

/-- Success of `Phone.__init__` coincides with the regex test. -/
theorem phone_make_ok_iff (s : String) :
    Phone.make s = .ok ⟨s⟩ ↔ phoneFullmatch s = true := by
  unfold Phone.make
  split <;> simp_all

/-- Failure of `Phone.__init__` coincides with the regex test failing. -/
theorem phone_make_error_iff (s : String) :
    Phone.make s = .error "Phone number must be 10 digits" ↔
      phoneFullmatch s = false := by
  unfold Phone.make
  split <;> simp_all

/-- Whenever `Phone.__init__` returns, the stored value is the input and
it passed validation. -/
theorem phone_make_ok_inv {s : String} {p : Phone}
    (h : Phone.make s = .ok p) : p = ⟨s⟩ ∧ phoneFullmatch s = true := by
  unfold Phone.make at h
  split at h
  · exact ⟨(Except.ok.injEq _ _).mp h |>.symm, by assumption⟩
  · cases h

/-! ## Claim theorems -/

/--
C1, counterexample: the claim says Phone construction succeeds only for
ASCII digits `0`-`9`, but `re.fullmatch(r'\d{10}', ...)` matches any
Unicode decimal digits: the string of the ten Arabic-Indic digits
U+0660..U+0669 is accepted by the code while the spec's ASCII predicate
rejects it.
-/
theorem phone_accepts_nonascii_digits :
    Phone.make "٠١٢٣٤٥٦٧٨٩" = .ok ⟨"٠١٢٣٤٥٦٧٨٩"⟩ ∧
    specPhoneOk "٠١٢٣٤٥٦٧٨٩" = false :=
  ⟨rfl, by decide⟩

/--
C1 (amended): constructing a Phone with `s` succeeds (storing value `s`)
iff `s` consists of exactly 10 Unicode decimal-digit characters (category
Nd — a superset of ASCII `0`-`9`), anchored at both ends; any other input
raises `ValueError("Phone number must be 10 digits")`.
-/
theorem phone_validation_unicode (s : String) :
    (Phone.make s = .ok ⟨s⟩ ↔
      s.data.length = 10 ∧ ∀ c ∈ s.data, isPyDigit c = true) ∧
    (¬ (s.data.length = 10 ∧ ∀ c ∈ s.data, isPyDigit c = true) →
      Phone.make s = .error "Phone number must be 10 digits") := by
  have hiff := matchDigitsN_iff 10 s.data
  constructor
  · rw [phone_make_ok_iff, phoneFullmatch, hiff]
  · intro h
    rw [phone_make_error_iff, phoneFullmatch]
    rw [← hiff] at h
    exact Bool.eq_false_iff.mpr fun hc => h hc

/-- Witness for C1 at concrete inputs. -/
theorem phone_validation_unicode_witness :
    Phone.make "1234567890" = .ok ⟨"1234567890"⟩ ∧
    Phone.make "123" = .error "Phone number must be 10 digits" :=
  ⟨(phone_validation_unicode "1234567890").1.mpr (by decide),
   (phone_validation_unicode "123").2 (by decide)⟩

/--
C2: for a Record with phones exactly `["1234567890"]`, whatever its name,
`edit_phone("1234567890", "bad")` raises
`ValueError("Phone number must be 10 digits")` and leaves the phone list
empty: the old number was removed before the new one failed validation
(edit_phone is non-atomic).
-/
theorem edit_phone_nonatomic_on_invalid_new (nm : Name) :
    (Record.edit_phone ⟨nm, [⟨"1234567890"⟩]⟩ "1234567890" "bad").2 =
      some "Phone number must be 10 digits" ∧
    (Record.edit_phone ⟨nm, [⟨"1234567890"⟩]⟩ "1234567890" "bad").1.phones =
      [] :=
  ⟨rfl, rfl⟩

/--
C6: constructing a Name with a non-empty string succeeds and stores that
string; constructing with the empty string raises
`ValueError("Name cannot be empty")`.
-/
theorem name_validation (s : String) :
    (s ≠ "" → Name.make s = .ok ⟨s⟩) ∧
    (s = "" → Name.make s = .error "Name cannot be empty") := by
  unfold Name.make
  exact ⟨fun h => by simp [h], fun h => by simp [h]⟩

/-- Witness for C6 at concrete inputs. -/
theorem name_validation_witness :
    Name.make "John" = .ok ⟨"John"⟩ ∧
    Name.make "" = .error "Name cannot be empty" :=
  ⟨(name_validation "John").1 (by decide), (name_validation "").2 rfl⟩

/--
C9: `add_phone` is atomic on failure: if the new number fails validation,
the error is raised and the Record (its name and its phone list) is
exactly unchanged, because the Phone is constructed before anything is
appended.
-/
theorem add_phone_atomic_on_failure (r : Record) (x : String)
    (h : phoneFullmatch x = false) :
    r.add_phone x = (r, some "Phone number must be 10 digits") := by
  unfold Record.add_phone Phone.make
  simp [h]

/-- Witness for C9 at a concrete record and invalid number. -/
theorem add_phone_atomic_on_failure_witness :
    Record.add_phone ⟨⟨"John"⟩, [⟨"1234567890"⟩]⟩ "bad" =
      (⟨⟨"John"⟩, [⟨"1234567890"⟩]⟩, some "Phone number must be 10 digits") :=
  add_phone_atomic_on_failure ⟨⟨"John"⟩, [⟨"1234567890"⟩]⟩ "bad" (by decide)

/--
C3: with a valid new number, `edit_phone(old, new)` raises nothing, its
result is the old phone list with every occurrence of `old` filtered out
(remaining phones in their original relative order) followed by the new
phone appended at the end; when no phone equals `old`, the net effect is
a plain append.
-/
theorem edit_phone_replaces_and_appends (r : Record) (o n : String)
    (h : phoneFullmatch n = true) :
    (r.edit_phone o n).2 = none ∧
    (r.edit_phone o n).1.phones =
      (r.phones.filter fun p => p.value != o) ++ [⟨n⟩] ∧
    ((∀ p ∈ r.phones, p.value ≠ o) →
      (r.edit_phone o n).1.phones = r.phones ++ [⟨n⟩]) := by
  have hmk : Phone.make n = .ok ⟨n⟩ := (phone_make_ok_iff n).mpr h
  refine ⟨?_, ?_, ?_⟩
  · simp [Record.edit_phone, Record.add_phone, hmk]
  · simp [Record.edit_phone, Record.add_phone, Record.remove_phone, hmk]
  · intro hall
    have hf : r.phones.filter (fun p => p.value != o) = r.phones :=
      List.filter_eq_self.mpr fun p hp => bne_iff_ne.mpr (hall p hp)
    simp [Record.edit_phone, Record.add_phone, Record.remove_phone, hmk, hf]

/-- Witness for C3: editing a present number, and editing an absent one. -/
theorem edit_phone_replaces_and_appends_witness :
    (Record.edit_phone ⟨⟨"John"⟩, [⟨"1234567890"⟩]⟩ "1234567890"
        "1112223333").1.phones = [⟨"1112223333"⟩] ∧
    (Record.edit_phone ⟨⟨"John"⟩, [⟨"5555555555"⟩]⟩ "1234567890"
        "1112223333").1.phones = [⟨"5555555555"⟩, ⟨"1112223333"⟩] :=
  ⟨(edit_phone_replaces_and_appends ⟨⟨"John"⟩, [⟨"1234567890"⟩]⟩
      "1234567890" "1112223333" (by decide)).2.1,
   (edit_phone_replaces_and_appends ⟨⟨"John"⟩, [⟨"5555555555"⟩]⟩
      "1234567890" "1112223333" (by decide)).2.2 (by decide)⟩

/--
C4: `remove_phone(number)` keeps exactly the phones whose value differs
from `number` (name untouched); when nothing matches it is a silent no-op,
and it is idempotent.
-/
theorem remove_phone_filters_all (r : Record) (x : String) :
    (r.remove_phone x).name = r.name ∧
    (r.remove_phone x).phones = (r.phones.filter fun p => p.value != x) ∧
    ((∀ p ∈ r.phones, p.value ≠ x) → r.remove_phone x = r) ∧
    (r.remove_phone x).remove_phone x = r.remove_phone x := by
  refine ⟨rfl, rfl, ?_, ?_⟩
  · intro hall
    have hf : r.phones.filter (fun p => p.value != x) = r.phones :=
      List.filter_eq_self.mpr fun p hp => bne_iff_ne.mpr (hall p hp)
    cases r
    simp [Record.remove_phone, hf]
  · cases r
    simp [Record.remove_phone, List.filter_filter]

/-- Witness for C4: removing an absent number changes nothing. -/
theorem remove_phone_filters_all_witness :
    Record.remove_phone ⟨⟨"A"⟩, [⟨"1234567890"⟩]⟩ "5555555555" =
      ⟨⟨"A"⟩, [⟨"1234567890"⟩]⟩ :=
  (remove_phone_filters_all ⟨⟨"A"⟩, [⟨"1234567890"⟩]⟩ "5555555555").2.2.1
    (by decide)

/-- Scanning `l ++ [⟨x⟩]` for value `x` always finds a phone of value `x`. -/
theorem find_append_singleton (l : List Phone) (x : String) :
    ∃ p, ((l ++ [(⟨x⟩ : Phone)]).find? fun p => p.value == x) = some p ∧
      p.value = x := by
  induction l with
  | nil => exact ⟨⟨x⟩, by simp⟩
  | cons a l ih =>
    cases hb : (a.value == x) with
    | true =>
      exact ⟨a, by simp [List.find?_cons, hb], by simpa using hb⟩
    | false =>
      obtain ⟨p, hp, hv⟩ := ih
      exact ⟨p, by simp [List.find?_cons, hb, hp], hv⟩

/-- A successful scan returns the first phone of the sought value: the
list splits around the result, with no match before it. -/
theorem find_some_first {l : List Phone} {n : String} {p : Phone}
    (h : (l.find? fun q => q.value == n) = some p) :
    p.value = n ∧ ∃ l1 l2, l = l1 ++ p :: l2 ∧ ∀ q ∈ l1, q.value ≠ n := by
  induction l with
  | nil => cases h
  | cons a l ih =>
    cases hb : (a.value == n) with
    | true =>
      rw [List.find?_cons, hb] at h
      cases h
      exact ⟨by simpa using hb, [], l, rfl, by simp⟩
    | false =>
      rw [List.find?_cons, hb] at h
      obtain ⟨hv, l1, l2, heq, hfst⟩ := ih h
      refine ⟨hv, a :: l1, l2, by rw [heq, List.cons_append], ?_⟩
      intro q hq
      rcases List.mem_cons.mp hq with hq | hq
      · subst hq; simpa using hb
      · exact hfst q hq

/--
C5: after a successful `add_phone(x)`, `find_phone(x)` returns a Phone
whose value is `x`; in general `find_phone(n)` returns `None` exactly when
no stored phone has value `n`, and otherwise returns the first phone of
value `n` in sequence order.
-/
theorem add_then_find_roundtrip (r : Record) (x n : String) :
    ((r.add_phone x).2 = none →
      ∃ p, (r.add_phone x).1.find_phone x = some p ∧ p.value = x) ∧
    (r.find_phone n = none ↔ ∀ p ∈ r.phones, p.value ≠ n) ∧
    (∀ p, r.find_phone n = some p →
      p.value = n ∧
      ∃ l1 l2, r.phones = l1 ++ p :: l2 ∧ ∀ q ∈ l1, q.value ≠ n) := by
  refine ⟨?_, ?_, ?_⟩
  · intro hok
    cases hmk : Phone.make x with
    | ok p =>
      obtain ⟨hp, _⟩ := phone_make_ok_inv hmk
      subst hp
      simpa [Record.add_phone, hmk, Record.find_phone] using
        find_append_singleton r.phones x
    | error e =>
      simp [Record.add_phone, hmk] at hok
  · simp [Record.find_phone, List.find?_eq_none]
  · intro p hp
    exact find_some_first hp

/-- Witness for C5: add then find on a concrete record. -/
theorem add_then_find_roundtrip_witness :
    (∃ p, ((Record.add_phone ⟨⟨"John"⟩, [⟨"5555555555"⟩]⟩
        "1234567890").1.find_phone "1234567890") = some p ∧
      p.value = "1234567890") ∧
    Record.find_phone ⟨⟨"John"⟩, [⟨"5555555555"⟩]⟩ "1234567890" = none :=
  ⟨(add_then_find_roundtrip ⟨⟨"John"⟩, [⟨"5555555555"⟩]⟩
      "1234567890" "1234567890").1 rfl,
   (add_then_find_roundtrip ⟨⟨"John"⟩, [⟨"5555555555"⟩]⟩
      "1234567890" "1234567890").2.1.mpr (by decide)⟩

/-- After an in-place replace of key `k`, scanning for `k` yields the new
entry, provided `k` was present. -/
theorem find_map_replace (d : List (String × Record)) (k : String)
    (v : Record) (h : (d.any fun kv => kv.1 == k) = true) :
    ((d.map fun kv => if kv.1 == k then (k, v) else kv).find?
      fun kv => kv.1 == k) = some (k, v) := by
  induction d with
  | nil => cases h
  | cons a d ih =>
    cases hb : (a.1 == k) with
    | true =>
      have ha : a.1 = k := by simpa using hb
      simp [List.find?_cons, ha, -List.find?_map]
    | false =>
      have ha : ¬ a.1 = k := by simpa using hb
      have hd : (d.any fun kv => kv.1 == k) = true := by
        simpa [List.any_cons, hb] using h
      simp [List.find?_cons, hb, ha, -List.find?_map]
      simpa using ih hd

/-- An in-place replace of key `k` does not disturb scans for another
key. -/
theorem find_map_replace_other (d : List (String × Record))
    (k kq : String) (v : Record) (h : kq ≠ k) :
    ((d.map fun kv => if kv.1 == k then (k, v) else kv).find?
      fun kv => kv.1 == kq) = d.find? fun kv => kv.1 == kq := by
  induction d with
  | nil => rfl
  | cons a d ih =>
    cases hb : (a.1 == k) with
    | true =>
      have ha : a.1 = k := by simpa using hb
      have hkq : ¬ k = kq := fun e => h e.symm
      simp [List.find?_cons, ha, hkq, -List.find?_map]
      simpa using ih
    | false =>
      have ha : ¬ a.1 = k := by simpa using hb
      cases hq : (a.1 == kq) with
      | true => simp [List.find?_cons, ha, hq, -List.find?_map]
      | false =>
        simp [List.find?_cons, ha, hq, -List.find?_map]
        simpa using ih

/-- Appending an entry of key `k` to a list that has no key `k` makes a
scan for `k` find exactly that entry. -/
theorem find_append_absent (d : List (String × Record)) (k : String)
    (v : Record) (h : (d.any fun kv => kv.1 == k) = false) :
    ((d ++ [(k, v)]).find? fun kv => kv.1 == k) = some (k, v) := by
  induction d with
  | nil => simp
  | cons a d ih =>
    rw [List.any_cons, Bool.or_eq_false_iff] at h
    obtain ⟨hb, hd⟩ := h
    simp [List.find?_cons, hb, ih hd]

/-- Appending an entry of key `k` does not disturb scans for another
key. -/
theorem find_append_other (d : List (String × Record)) (k kq : String)
    (v : Record) (h : kq ≠ k) :
    ((d ++ [(k, v)]).find? fun kv => kv.1 == kq) =
      d.find? fun kv => kv.1 == kq := by
  induction d with
  | nil =>
    have hkq : (k == kq) = false := by
      simp
      exact fun e => h e.symm
    simp [List.find?_cons, hkq]
  | cons a d ih =>
    cases hb : (a.1 == kq) <;> simp [List.find?_cons, hb, ih]

/-- `self.data[k] = v` then `self.data.get(k)` returns `v`. -/
theorem dictGet_dictSet_self (d : List (String × Record)) (k : String)
    (v : Record) : dictGet (dictSet d k v) k = some v := by
  unfold dictGet dictSet
  split
  case isTrue h => rw [find_map_replace d k v h]; rfl
  case isFalse h =>
    rw [find_append_absent d k v (Bool.eq_false_iff.mpr h)]; rfl

/-- `self.data[k] = v` leaves `self.data.get(kq)` unchanged for `kq ≠ k`. -/
theorem dictGet_dictSet_other (d : List (String × Record)) (k kq : String)
    (v : Record) (h : kq ≠ k) :
    dictGet (dictSet d k v) kq = dictGet d kq := by
  unfold dictGet dictSet
  split
  · rw [find_map_replace_other d k kq v h]
  · rw [find_append_other d k kq v h]

/--
C7: `add_record(record)` maps `record.name.value` to `record`
(overwriting any previous entry with that key — last-write-wins, no
error) and leaves every other key's lookup unchanged.
-/
theorem add_record_last_write_wins (book : AddressBook) (record : Record) :
    (book.add_record record).find record.name.value = some record ∧
    ∀ k, k ≠ record.name.value →
      (book.add_record record).find k = book.find k := by
  constructor
  · exact dictGet_dictSet_self book.data record.name.value record
  · intro k hk
    exact dictGet_dictSet_other book.data record.name.value k record hk

/-- Witness for C7: overwriting an existing "John" entry. -/
theorem add_record_last_write_wins_witness :
    (AddressBook.add_record ⟨[("John", ⟨⟨"John"⟩, []⟩)]⟩
        ⟨⟨"John"⟩, [⟨"1234567890"⟩]⟩).find "John" =
      some ⟨⟨"John"⟩, [⟨"1234567890"⟩]⟩ ∧
    (AddressBook.add_record ⟨[("John", ⟨⟨"John"⟩, []⟩)]⟩
        ⟨⟨"John"⟩, [⟨"1234567890"⟩]⟩).find "Jane" = none := by
  constructor
  · exact (add_record_last_write_wins ⟨[("John", ⟨⟨"John"⟩, []⟩)]⟩
      ⟨⟨"John"⟩, [⟨"1234567890"⟩]⟩).1
  · rw [(add_record_last_write_wins ⟨[("John", ⟨⟨"John"⟩, []⟩)]⟩
      ⟨⟨"John"⟩, [⟨"1234567890"⟩]⟩).2 "Jane" (by decide)]
    rfl

/-- Scanning for key `n` after filtering key `n` away finds nothing. -/
theorem find_filter_ne (d : List (String × Record)) (n : String) :
    ((d.filter fun kv => kv.1 != n).find? fun kv => kv.1 == n) = none := by
  induction d with
  | nil => rfl
  | cons a d ih =>
    cases hb : (a.1 == n) with
    | true => simp [List.filter_cons, bne, hb, ih]
    | false => simp [List.filter_cons, bne, hb, List.find?_cons, ih]

/-- `delete(n)` then `find(n)` returns `None`, from any book state. -/
theorem find_delete_self (b : AddressBook) (n : String) :
    (b.delete n).find n = none := by
  unfold AddressBook.delete AddressBook.find dictGet
  split
  case isTrue h => rw [find_filter_ne]; rfl
  case isFalse h =>
    have hf : (b.data.find? fun kv => kv.1 == n) = none := by
      rw [List.find?_eq_none]
      intro a ha hc
      exact h (List.any_eq_true.mpr ⟨a, ha, hc⟩)
    rw [hf]; rfl

/-- `delete(n)` on a book with no entry for `n` is a no-op. -/
theorem delete_noop_of_absent (b : AddressBook) (n : String)
    (h : b.find n = none) : b.delete n = b := by
  have hany : ¬ (b.data.any fun kv => kv.1 == n) = true := by
    intro hc
    obtain ⟨a, ha, hpa⟩ := List.any_eq_true.mp hc
    unfold AddressBook.find dictGet at h
    cases hf : b.data.find? fun kv => kv.1 == n with
    | none =>
      rw [List.find?_eq_none] at hf
      exact hf a ha hpa
    | some kv =>
      rw [hf] at h
      exact Option.noConfusion h
  unfold AddressBook.delete
  rw [if_neg hany]

/--
C8: `add_record(r)` then `find(r.name.value)` returns that same Record
`r`; deleting `r.name.value` afterwards makes the same lookup return
`None`; and `delete` on an absent name is a no-op, not an error.
-/
theorem book_add_find_delete_roundtrip (book : AddressBook) (r : Record) :
    (book.add_record r).find r.name.value = some r ∧
    ((book.add_record r).delete r.name.value).find r.name.value = none ∧
    (∀ b : AddressBook, ∀ k, b.find k = none → b.delete k = b) := by
  refine ⟨?_, ?_, ?_⟩
  · exact dictGet_dictSet_self book.data r.name.value r
  · exact find_delete_self (book.add_record r) r.name.value
  · exact fun b k h => delete_noop_of_absent b k h

/-- Witness for C8: a concrete add/find/delete sequence on "John". -/
theorem book_add_find_delete_roundtrip_witness :
    (AddressBook.add_record ⟨[]⟩ ⟨⟨"John"⟩, []⟩).find "John" =
      some ⟨⟨"John"⟩, []⟩ ∧
    AddressBook.delete ⟨[]⟩ "Jane" = ⟨[]⟩ :=
  ⟨(book_add_find_delete_roundtrip ⟨[]⟩ ⟨⟨"John"⟩, []⟩).1,
   (book_add_find_delete_roundtrip ⟨[]⟩ ⟨⟨"John"⟩, []⟩).2.2 ⟨[]⟩ "Jane" rfl⟩

/-- Every phone stored in `r` passed `Phone.__init__` validation. -/
def Record.PhonesValid (r : Record) : Prop :=
  ∀ p ∈ r.phones, phoneFullmatch p.value = true

/-- Records reachable through the public operations: construction,
`add_phone`, `remove_phone`, `edit_phone` — including the states left
behind when an operation raises. -/
inductive Record.Reachable : Record → Prop
  | init (s : String) (r : Record) :
      Record.make s = .ok r → Record.Reachable r
  | add_phone (r : Record) (x : String) :
      Record.Reachable r → Record.Reachable (r.add_phone x).1
  | remove_phone (r : Record) (x : String) :
      Record.Reachable r → Record.Reachable (r.remove_phone x)
  | edit_phone (r : Record) (o n : String) :
      Record.Reachable r → Record.Reachable (r.edit_phone o n).1

/-- A freshly constructed Record has no phones. -/
theorem record_make_ok_inv {s : String} {r : Record}
    (h : Record.make s = .ok r) : r.phones = [] := by
  unfold Record.make Name.make at h
  split at h
  · exact Except.noConfusion h
  · cases h
    rfl

/-- `add_phone` preserves phone validity (both on success and failure). -/
theorem phonesValid_add_phone (r : Record) (x : String)
    (h : r.PhonesValid) : Record.PhonesValid (r.add_phone x).1 := by
  unfold Record.add_phone
  cases hmk : Phone.make x with
  | ok p =>
    obtain ⟨hp, hv⟩ := phone_make_ok_inv hmk
    subst hp
    intro q hq
    rcases List.mem_append.mp hq with hq | hq
    · exact h q hq
    · rw [List.mem_singleton.mp hq]
      exact hv
  | error e => exact h

/-- `remove_phone` preserves phone validity. -/
theorem phonesValid_remove_phone (r : Record) (x : String)
    (h : r.PhonesValid) : Record.PhonesValid (r.remove_phone x) :=
  fun q hq => h q (List.mem_of_mem_filter hq)

/--
C10: every Record reachable through the public operations contains only
phones that passed Phone validation, and `find_phone` can only ever
return such a phone.  (`remove_phone` and `find_phone` are total in the
embedding, as in the code: they have no raise path.)
-/
theorem reachable_record_phones_valid (r : Record) (h : r.Reachable) :
    r.PhonesValid ∧
    ∀ x p, r.find_phone x = some p → phoneFullmatch p.value = true := by
  have hv : r.PhonesValid := by
    induction h with
    | init s r hmk =>
      intro q hq
      rw [record_make_ok_inv hmk] at hq
      cases hq
    | add_phone r x _ ih => exact phonesValid_add_phone r x ih
    | remove_phone r x _ ih => exact phonesValid_remove_phone r x ih
    | edit_phone r o n _ ih =>
      exact phonesValid_add_phone _ n (phonesValid_remove_phone r o ih)
  refine ⟨hv, fun x p hp => hv p ?_⟩
  exact List.mem_of_find?_eq_some hp

/-- Witness for C10 on a concretely constructed record. -/
theorem reachable_record_phones_valid_witness :
    Record.PhonesValid (Record.add_phone ⟨⟨"John"⟩, []⟩ "1234567890").1 :=
  (reachable_record_phones_valid (Record.add_phone ⟨⟨"John"⟩, []⟩ "1234567890").1
    (Record.Reachable.add_phone ⟨⟨"John"⟩, []⟩ "1234567890"
      (Record.Reachable.init "John" ⟨⟨"John"⟩, []⟩ rfl))).1

end AddressBookSpec
